import Mathlib

/-!
# Verification of the Haystack TransformersSummarizer batching/regrouping core

Shallow embedding of `src/haystack/nodes/summarizer/transformers.py`
(`TransformersSummarizer.predict` and `TransformersSummarizer.predict_batch`).

The external collaborators are modelled as opaque function parameters:
* `tokenize : String → Nat` stands for the tokenizer, returning the token
  count `len(input_id)` of one span (only the count is ever used by the code);
* `engine : List String → List String` stands for the HuggingFace pipeline,
  returning one summary text per input span in order (the `summary_text`
  fields of the returned dicts).  In `predict_batch` the tqdm/ListDataset
  loop concatenates the engine's batches in order, which is extensionally
  the same flat list; generation parameters (`min_length`, `max_length`,
  `truncation`, `clean_up_tokenization_spaces`, `batch_size`) are passed
  through unchanged and do not affect the bookkeeping verified here.

Python `dict` metadata is modelled as an insertion-ordered association list
`List (String × String)`; `dict.update` keeps the position of an existing
key and appends a fresh one, which `dictSet` reproduces.
-/

namespace Haystack

/-- A Haystack `Document`: `content` plus a string-keyed metadata mapping. -/
structure Document where
  content : String
  meta : List (String × String)
deriving Repr, DecidableEq, Inhabited

/-- The two `AttributeError`s raised by `predict` / `predict_batch`;
the spec calls them `InvalidConfiguration` and `InvalidInput`. -/
inductive SummarizerError where
  /-- "min_length cannot be greater than max_length" -/
  | invalidConfiguration : SummarizerError
  /-- "Summarizer needs at least one document to produce a summary." -/
  | invalidInput : SummarizerError
deriving Repr, DecidableEq

/-- The per-instance configuration fields of `TransformersSummarizer`
that the two predict methods read. `model_max_length` stands for
`self.summarizer.tokenizer.model_max_length`. -/
structure Config where
  max_length : Int
  min_length : Int
  separator_for_single_summary : String
  generate_single_summary : Bool
  model_max_length : Nat
deriving Repr, DecidableEq

/-- Python `m.update({k: v})` on an insertion-ordered dict: replace the
value at an existing key in place, otherwise append the new pair. -/
def dictSet (m : List (String × String)) (k v : String) : List (String × String) :=
  if m.any (fun p => p.1 == k) then
    m.map (fun p => if p.1 == k then (k, v) else p)
  else
    m ++ [(k, v)]

/-- Python `m.get(k)`: first value stored under `k`, if any. -/
def dictGet (m : List (String × String)) (k : String) : Option String :=
  (m.find? (fun p => p.1 == k)).map (fun p => p.2)

/-- The truncation warning text built in both predict methods
(an f-string over `model_max_length`; all other parts are constant). -/
def truncationWarning (mml : Nat) : String :=
  "One or more of your input document texts is longer than the specified " ++
  "maximum sequence length for this summarizer model. " ++
  "Generating summary from first " ++ toString mml ++ " tokens."

/-- One iteration of the advisory loop in `predict` (lines 161-172):
state is `(print_log, emitted warnings so far)`; a span whose token count
exceeds `model_max_length` logs the warning and records it in `print_log`
unless the same message was already logged. -/
def advisoryStep (mml : Nat) (s : List String × List String) (tc : Nat) :
    List String × List String :=
  if mml < tc then
    let w := truncationWarning mml
    if w ∈ s.1 then s else (s.1 ++ [w], s.2 ++ [w])
  else s

/-- The advisory loop of `predict` over the token counts of all spans,
starting from the instance's persistent `print_log`; returns the updated
`print_log` and the list of warnings actually emitted by this call. -/
def predictAdvisory (mml : Nat) (printLog : List String) (tcs : List Nat) :
    List String × List String :=
  tcs.foldl (advisoryStep mml) (printLog, [])

/-- The advisory loop of `predict_batch` (lines 258-268): it logs the
warning at the first over-long span and `break`s, so it emits the warning
exactly once per call when any span exceeds the limit, else nothing. -/
def batchAdvisory (mml : Nat) (tcs : List Nat) : List String :=
  if tcs.any (fun tc => mml < tc) then [truncationWarning mml] else []

/-- The span list `contexts` built by `predict` (lines 153-158): one span
per document, or in merged mode the single separator-join of all contents. -/
def predictSpans (cfg : Config) (gss : Bool) (documents : List Document) :
    List String :=
  let contexts := documents.map (fun d => d.content)
  if gss then [String.intercalate cfg.separator_for_single_summary contexts]
  else contexts

/-- `TransformersSummarizer.predict` (lines 131-195).  Returns the result
documents together with the updated `print_log` and the warnings emitted.
Python's `zip` truncates to the shortest list, as `List.zip` does. -/
def predict (cfg : Config) (printLog : List String)
    (tokenize : String → Nat) (engine : List String → List String)
    (documents : List Document) (generate_single_summary : Option Bool) :
    Except SummarizerError (List Document × List String × List String) :=
  if cfg.max_length < cfg.min_length then
    Except.error SummarizerError.invalidConfiguration
  else if documents.length = 0 then
    Except.error SummarizerError.invalidInput
  else
    let gss := generate_single_summary.getD cfg.generate_single_summary
    let contexts := predictSpans cfg gss documents
    let logState := predictAdvisory cfg.model_max_length printLog
      (contexts.map tokenize)
    let summaries := engine contexts
    let result : List Document :=
      if gss then
        (contexts.zip summaries).map
          (fun p => Document.mk p.2 [("context", p.1)])
      else
        (contexts.zip (summaries.zip documents)).map
          (fun p => Document.mk p.2.1 (dictSet p.2.2.meta "context" p.1))
    Except.ok (result, logState.1, logState.2)

/-- The two input shapes `Union[List[Document], List[List[Document]]]`
accepted by `predict_batch`; `flat` is the case where
`isinstance(documents[0], Document)` holds (`single_doc_list = True`). -/
inductive BatchInput where
  | flat : List Document → BatchInput
  | nested : List (List Document) → BatchInput
deriving Repr, DecidableEq

/-- The emptiness test of `predict_batch` (lines 220-222):
`len(documents) == 0 or (isinstance(documents[0], list) and
all(len(docs) == 0 for docs in documents))`. -/
def isEmptyInput : BatchInput → Bool
  | BatchInput.flat docs => docs.isEmpty
  | BatchInput.nested groups =>
      groups.isEmpty || groups.all (fun g => g.isEmpty)

/-- Span construction of `predict_batch` (lines 235-255): returns the flat
list `contexts` submitted to inference and the per-group span counts
`number_of_docs`. -/
def buildSpans (cfg : Config) (gss : Bool) : BatchInput → List String × List Nat
  | BatchInput.flat docs =>
      let contexts := docs.map (fun d => d.content)
      if gss then
        ([String.intercalate cfg.separator_for_single_summary contexts], [1])
      else
        (contexts, contexts.map (fun _ => 1))
  | BatchInput.nested groups =>
      let contexts := groups.map (fun g => g.map (fun d => d.content))
      if gss then
        let joined :=
          contexts.map (String.intercalate cfg.separator_for_single_summary)
        (joined, joined.map (fun _ => 1))
      else
        (contexts.flatten, contexts.map (fun g => g.length))

/-- The regrouping loop of `predict_batch` (lines 290-298): successive
slices `xs[left_idx:right_idx]` of length `counts[i]` (Python slices clamp
out-of-range bounds exactly like `take`/`drop`). -/
def groupByCounts {α : Type} : List α → List Nat → List (List α)
  | _, [] => []
  | xs, n :: rest => xs.take n :: groupByCounts (xs.drop n) rest

/-- `TransformersSummarizer.predict_batch` (lines 197-311).  Each entry of
the returned list is `Sum.inl` of a single Document (`single_doc_list`
path, `result.append(cur_summaries[0])`) or `Sum.inr` of a Document list
(`result.append(cur_summaries)`).  Also returns the warnings emitted. -/
def predict_batch (cfg : Config)
    (tokenize : String → Nat) (engine : List String → List String)
    (documents : BatchInput) (generate_single_summary : Option Bool) :
    Except SummarizerError (List (Document ⊕ List Document) × List String) :=
  if cfg.max_length < cfg.min_length then
    Except.error SummarizerError.invalidConfiguration
  else if isEmptyInput documents then
    Except.error SummarizerError.invalidInput
  else
    let gss := generate_single_summary.getD cfg.generate_single_summary
    let single_doc_list : Bool :=
      match documents with
      | BatchInput.flat _ => true
      | BatchInput.nested _ => false
    let sc := buildSpans cfg gss documents
    let contexts := sc.1
    let number_of_docs := sc.2
    let warnings := batchAdvisory cfg.model_max_length (contexts.map tokenize)
    let summaries := engine contexts
    let grouped_summaries := groupByCounts summaries number_of_docs
    let grouped_contexts := groupByCounts contexts number_of_docs
    let result : List (Document ⊕ List Document) :=
      (grouped_summaries.zip grouped_contexts).map (fun p =>
        let cur_summaries :=
          (p.1.zip p.2).map (fun q => Document.mk q.1 [("context", q.2)])
        if single_doc_list then Sum.inl cur_summaries.headI
        else Sum.inr cur_summaries)
    Except.ok (result, warnings)

/-! ## Helper lemmas -/

theorem sum_map_one {α : Type} (l : List α) : (l.map (fun _ => 1)).sum = l.length := by
  induction l with
  | nil => rfl
  | cons x xs ih => simp [ih, Nat.add_comm]

theorem sum_map_one_comp {α β : Type} (l : List α) (f : α → β) :
    (l.map ((fun _ => (1 : Nat)) ∘ f)).sum = l.length := by
  induction l with
  | nil => rfl
  | cons x xs ih => simp [ih, Nat.add_comm]

theorem groupByCounts_length {α : Type} (xs : List α) (counts : List Nat) :
    (groupByCounts xs counts).length = counts.length := by
  induction counts generalizing xs with
  | nil => rfl
  | cons n rest ih => simp [groupByCounts, ih]

theorem groupByCounts_map_length {α : Type} (counts : List Nat) (xs : List α)
    (h : counts.sum ≤ xs.length) :
    (groupByCounts xs counts).map List.length = counts := by
  induction counts generalizing xs with
  | nil => rfl
  | cons n rest ih =>
      simp only [List.sum_cons] at h
      have hn : n ≤ xs.length := le_trans (Nat.le_add_right n rest.sum) h
      have hrest : rest.sum ≤ (xs.drop n).length := by
        rw [List.length_drop]
        omega
      simp [groupByCounts, List.length_take, Nat.min_eq_left hn, ih _ hrest]

theorem groupByCounts_getD {α : Type} (counts : List Nat) (xs : List α) (i : Nat)
    (h : i < counts.length) :
    (groupByCounts xs counts).getD i [] =
      (xs.drop ((counts.take i).sum)).take (counts.getD i 0) := by
  induction counts generalizing xs i with
  | nil => simp at h
  | cons n rest ih =>
      cases i with
      | zero => simp [groupByCounts]
      | succ j =>
          have hj : j < rest.length := by simpa using h
          rw [show groupByCounts xs (n :: rest) =
                xs.take n :: groupByCounts (xs.drop n) rest from rfl,
              List.getD_cons_succ, ih _ _ hj, List.drop_drop]
          simp [Nat.add_comm]

theorem groupByCounts_replicate_one {α : Type} (xs : List α) :
    groupByCounts xs (List.replicate xs.length 1) = xs.map (fun x => [x]) := by
  induction xs with
  | nil => rfl
  | cons x rest ih => simp [groupByCounts, List.replicate_succ, ih]

theorem getElem?_zip_bind {α β : Type} (a : List α) (b : List β) (i : Nat) :
    (a.zip b)[i]? = a[i]?.bind (fun x => b[i]?.map (fun y => (x, y))) := by
  induction a generalizing b i with
  | nil => simp
  | cons x xs ih =>
      cases b with
      | nil => cases i <;> simp
      | cons y ys => cases i <;> simp [ih]

theorem getElem?_eq_some_getD {α : Type} (l : List α) (i : Nat) (d : α)
    (h : i < l.length) : l[i]? = some (l.getD i d) := by
  rw [List.getD_eq_getElem?_getD, List.getElem?_eq_getElem h]
  rfl

theorem flatten_getElem? {α : Type} :
    ∀ (L : List (List α)) (i k : Nat) (li : List α),
      L[i]? = some li → k < li.length →
      L.flatten[((L.map (fun l => l.length)).take i).sum + k]? = li[k]? := by
  intro L
  induction L with
  | nil =>
      intro i k li hi
      simp at hi
  | cons x rest ih =>
      intro i k li hi hk
      cases i with
      | zero =>
          have hx : x = li := by simpa using hi
          subst hx
          show (x ++ rest.flatten)[0 + k]? = x[k]?
          rw [Nat.zero_add]
          exact List.getElem?_append_left hk
      | succ j =>
          have hj : rest[j]? = some li := by simpa using hi
          show (x ++ rest.flatten)[_]? = li[k]?
          have harr : ((List.map (fun l => l.length) (x :: rest)).take
                (j + 1)).sum + k =
              x.length + (((rest.map (fun l => l.length)).take j).sum + k) := by
            simp [Nat.add_assoc]
          rw [harr, List.getElem?_append_right (Nat.le_add_right _ _),
              Nat.add_sub_cancel_left]
          exact ih j k li hj hk

theorem buildSpans_counts_length_nested (cfg : Config) (gss : Bool)
    (groups : List (List Document)) :
    (buildSpans cfg gss (BatchInput.nested groups)).2.length =
      groups.length := by
  cases gss <;> simp [buildSpans]

theorem find?_map_set (m : List (String × String)) (k v : String) :
    List.find? (fun p => p.1 == k) (m.map (fun p => if p.1 == k then (k, v) else p)) =
      if m.any (fun p => p.1 == k) then some (k, v) else none := by
  induction m with
  | nil => simp
  | cons q rest ih =>
      by_cases hq : (q.1 == k) = true
      · rw [List.map_cons, if_pos hq,
            @List.find?_cons_of_pos _ (fun p => p.1 == k) (k, v) _ (by simp),
            List.any_cons, hq, Bool.true_or, if_pos rfl]
      · have hqf : (q.1 == k) = false := by simpa using hq
        rw [List.map_cons, if_neg hq,
            @List.find?_cons_of_neg _ (fun p => p.1 == k) q _ hq, ih,
            List.any_cons, hqf, Bool.false_or]

theorem find?_map_set_ne (m : List (String × String)) (k v k2 : String) (hne : k2 ≠ k) :
    List.find? (fun p => p.1 == k2) (m.map (fun p => if p.1 == k then (k, v) else p)) =
      List.find? (fun p => p.1 == k2) m := by
  induction m with
  | nil => rfl
  | cons q rest ih =>
      by_cases hq : (q.1 == k) = true
      · have hqk : q.1 = k := by simpa using hq
        have h1 : (k == k2) = false := by simpa using (Ne.symm hne)
        have h2 : (q.1 == k2) = false := by rw [hqk]; exact h1
        rw [List.map_cons, if_pos hq,
            @List.find?_cons_of_neg _ (fun p => p.1 == k2) (k, v) _ (by simp [h1]),
            ih, @List.find?_cons_of_neg _ (fun p => p.1 == k2) q _ (by simp [h2])]
      · by_cases hq2 : (q.1 == k2) = true
        · rw [List.map_cons, if_neg hq,
              @List.find?_cons_of_pos _ (fun p => p.1 == k2) q _ hq2,
              @List.find?_cons_of_pos _ (fun p => p.1 == k2) q _ hq2]
        · rw [List.map_cons, if_neg hq,
              @List.find?_cons_of_neg _ (fun p => p.1 == k2) q _ hq2, ih,
              @List.find?_cons_of_neg _ (fun p => p.1 == k2) q _ hq2]

theorem dictGet_dictSet_self (m : List (String × String)) (k v : String) :
    dictGet (dictSet m k v) k = some v := by
  unfold dictGet dictSet
  by_cases h : m.any (fun p => p.1 == k)
  · rw [if_pos h, find?_map_set, if_pos h]
    rfl
  · rw [if_neg h, List.find?_append]
    have hnone : List.find? (fun p => p.1 == k) m = none := by
      rw [List.find?_eq_none]
      intro x hx hpx
      exact h (List.any_eq_true.mpr ⟨x, hx, hpx⟩)
    rw [hnone, List.find?_cons_of_pos _ (by simp)]
    rfl

theorem dictGet_dictSet_ne (m : List (String × String)) (k v k2 : String)
    (hne : k2 ≠ k) : dictGet (dictSet m k v) k2 = dictGet m k2 := by
  unfold dictGet dictSet
  by_cases h : m.any (fun p => p.1 == k)
  · rw [if_pos h, find?_map_set_ne m k v k2 hne]
  · rw [if_neg h, List.find?_append,
        List.find?_cons_of_neg _ (by simpa using Ne.symm hne)]
    cases List.find? (fun p => p.1 == k2) m <;> rfl

theorem advisory_foldl_fixed (mml : Nat) (tcs : List Nat)
    (s : List String × List String) (h : truncationWarning mml ∈ s.1) :
    tcs.foldl (advisoryStep mml) s = s := by
  induction tcs with
  | nil => rfl
  | cons t ts ih =>
      have hstep : advisoryStep mml s t = s := by
        unfold advisoryStep
        by_cases hc : mml < t
        · rw [if_pos hc, if_pos h]
        · rw [if_neg hc]
      rw [List.foldl_cons, hstep, ih]

theorem predictAdvisory_of_mem (mml : Nat) (printLog : List String)
    (tcs : List Nat) (h : truncationWarning mml ∈ printLog) :
    predictAdvisory mml printLog tcs = (printLog, []) :=
  advisory_foldl_fixed mml tcs (printLog, []) h

theorem predictAdvisory_of_no_overflow (mml : Nat) (printLog : List String) :
    ∀ tcs : List Nat, (∀ tc ∈ tcs, tc ≤ mml) →
      predictAdvisory mml printLog tcs = (printLog, []) := by
  intro tcs
  induction tcs with
  | nil => intro _; rfl
  | cons t ts ih =>
      intro h
      have hstep : advisoryStep mml (printLog, []) t = (printLog, []) := by
        unfold advisoryStep
        rw [if_neg (Nat.not_lt.mpr (h t (by simp)))]
      show List.foldl (advisoryStep mml) (printLog, []) (t :: ts) = _
      rw [List.foldl_cons, hstep]
      exact ih (fun tc htc => h tc (List.mem_cons_of_mem _ htc))

theorem predictAdvisory_emit (mml : Nat) (printLog : List String)
    (hnot : truncationWarning mml ∉ printLog) :
    ∀ tcs : List Nat, (∃ tc ∈ tcs, mml < tc) →
      predictAdvisory mml printLog tcs =
        (printLog ++ [truncationWarning mml], [truncationWarning mml]) := by
  intro tcs
  induction tcs with
  | nil =>
      rintro ⟨tc, htc, _⟩
      simp at htc
  | cons t ts ih =>
      intro hex
      show List.foldl (advisoryStep mml) (printLog, []) (t :: ts) = _
      rw [List.foldl_cons]
      by_cases hc : mml < t
      · have hstep : advisoryStep mml (printLog, []) t =
            (printLog ++ [truncationWarning mml], [truncationWarning mml]) := by
          unfold advisoryStep
          rw [if_pos hc, if_neg hnot]
          simp
        rw [hstep]
        exact advisory_foldl_fixed mml ts _ (by simp)
      · have hstep : advisoryStep mml (printLog, []) t = (printLog, []) := by
          unfold advisoryStep
          rw [if_neg hc]
        rw [hstep]
        apply ih
        obtain ⟨tc, htc, hlt⟩ := hex
        rcases List.mem_cons.mp htc with rfl | hmem
        · exact absurd hlt hc
        · exact ⟨tc, hmem, hlt⟩

theorem groupByCounts_replicate_one' {α : Type} (xs : List α) (n : Nat)
    (h : n = xs.length) :
    groupByCounts xs (List.replicate n 1) = xs.map (fun x => [x]) := by
  subst h
  exact groupByCounts_replicate_one xs

theorem regroup_ones (summaries contexts : List String)
    (wrap : List Document → Document ⊕ List Document)
    (h : summaries.length = contexts.length) :
    ((groupByCounts summaries (contexts.map (fun _ => 1))).zip
        (groupByCounts contexts (contexts.map (fun _ => 1)))).map (fun p =>
          wrap ((p.1.zip p.2).map (fun q => Document.mk q.1 [("context", q.2)]))) =
      (summaries.zip contexts).map
        (fun p => wrap [Document.mk p.1 [("context", p.2)]]) := by
  rw [List.map_const',
      groupByCounts_replicate_one' summaries contexts.length h.symm,
      groupByCounts_replicate_one' contexts contexts.length rfl,
      List.zip_map, List.map_map]
  apply List.map_congr_left
  intro a _
  cases a with
  | mk s c => simp [List.zip]

theorem regroup_ones_inl (summaries contexts : List String)
    (h : summaries.length = contexts.length) :
    ((groupByCounts summaries (contexts.map (fun _ => 1))).zip
        (groupByCounts contexts (contexts.map (fun _ => 1)))).map (fun p =>
          Sum.inl (α := Document) (β := List Document)
            ((p.1.zip p.2).map
              (fun q => Document.mk q.1 [("context", q.2)])).headI) =
      (summaries.zip contexts).map
        (fun p => Sum.inl (Document.mk p.1 [("context", p.2)])) :=
  regroup_ones summaries contexts (fun l => Sum.inl l.headI) h

theorem regroup_ones_inr (summaries contexts : List String)
    (h : summaries.length = contexts.length) :
    ((groupByCounts summaries (contexts.map (fun _ => 1))).zip
        (groupByCounts contexts (contexts.map (fun _ => 1)))).map (fun p =>
          Sum.inr (α := Document) (β := List Document)
            ((p.1.zip p.2).map
              (fun q => Document.mk q.1 [("context", q.2)]))) =
      (summaries.zip contexts).map
        (fun p => Sum.inr [Document.mk p.1 [("context", p.2)]]) :=
  regroup_ones summaries contexts Sum.inr h

/-- Closed form of `predict_batch` on a flat input in per-document mode:
one `Sum.inl` result per document, pairing the i-th summary with the i-th
document content as `context`. -/
theorem predict_batch_flat_perdoc_eq (cfg : Config) (tokenize : String → Nat)
    (engine : List String → List String) (docs : List Document)
    (hEng : ∀ l, (engine l).length = l.length)
    (hMin : cfg.min_length ≤ cfg.max_length) (hNe : docs ≠ []) :
    predict_batch cfg tokenize engine (BatchInput.flat docs) (some false) =
      Except.ok
        (((engine (docs.map (fun d => d.content))).zip
            (docs.map (fun d => d.content))).map
            (fun p => Sum.inl (Document.mk p.1 [("context", p.2)])),
         batchAdvisory cfg.model_max_length
           ((docs.map (fun d => d.content)).map tokenize)) := by
  unfold predict_batch
  rw [if_neg (not_lt.mpr hMin),
      if_neg (by simp [isEmptyInput, List.isEmpty_iff, hNe])]
  simp only [Option.getD, buildSpans, Bool.false_eq_true, if_false, if_true]
  rw [regroup_ones_inl _ _ (hEng _)]

/-- Element form of `predict_batch` on a nested input in per-document
mode: the entry for group `j` is a `Sum.inr` list whose `k`-th Document
pairs some summary with metadata consisting solely of the `context`
field set to the `k`-th document's content. -/
theorem predict_batch_nested_perdoc_elem (cfg : Config)
    (tokenize : String → Nat) (engine : List String → List String)
    (groups : List (List Document)) (j k : Nat) (gdocs : List Document)
    (d0 : Document) (hEng : ∀ l, (engine l).length = l.length)
    (hMin : cfg.min_length ≤ cfg.max_length)
    (hgj : groups[j]? = some gdocs) (hgk : gdocs[k]? = some d0) :
    ∃ rbn, predict_batch cfg tokenize engine (BatchInput.nested groups)
        (some false) = Except.ok rbn ∧
      ∃ l, rbn.1[j]? = some (Sum.inr l) ∧
        ∃ s, l[k]? = some (Document.mk s [("context", d0.content)]) := by
  have hjlen : j < groups.length := (List.getElem?_eq_some.mp hgj).1
  have hklen : k < gdocs.length := (List.getElem?_eq_some.mp hgk).1
  have hmem : gdocs ∈ groups := List.getElem?_mem hgj
  have hgdne : gdocs ≠ [] := by
    intro hcon
    rw [hcon] at hklen
    simp at hklen
  have h1 : groups.isEmpty = false := by
    cases groups with
    | nil => simp at hgj
    | cons a b => rfl
  have h2 : groups.all (fun g => g.isEmpty) = false := by
    rw [List.all_eq_false]
    exact ⟨gdocs, hmem, by simp [List.isEmpty_iff, hgdne]⟩
  have hNeN : isEmptyInput (BatchInput.nested groups) = false := by
    simp [isEmptyInput, h1, h2]
  have hLj : (groups.map (fun g => g.map (fun d => d.content)))[j]? =
      some (gdocs.map (fun d => d.content)) := by
    rw [List.getElem?_map, hgj]
    rfl
  have hcj : ((groups.map (fun g => g.map (fun d => d.content))).map
      (fun l => l.length))[j]? = some gdocs.length := by
    rw [List.getElem?_map, hLj]
    simp
  have hcjD : ((groups.map (fun g => g.map (fun d => d.content))).map
      (fun l => l.length)).getD j 0 = gdocs.length := by
    rw [List.getD_eq_getElem?_getD, hcj]
    rfl
  have hflat : (groups.map
      (fun g => g.map (fun d => d.content))).flatten[
        (((groups.map (fun g => g.map (fun d => d.content))).map
          (fun l => l.length)).take j).sum + k]? = some d0.content := by
    rw [flatten_getElem? _ j k _ hLj (by rw [List.length_map]; exact hklen),
        List.getElem?_map, hgk]
    rfl
  have hslen : (((groups.map (fun g => g.map (fun d => d.content))).map
      (fun l => l.length)).take j).sum + k <
      (engine (groups.map
        (fun g => g.map (fun d => d.content))).flatten).length := by
    rw [hEng]
    exact (List.getElem?_eq_some.mp hflat).1
  obtain ⟨s, hs⟩ : ∃ s, (engine (groups.map
      (fun g => g.map (fun d => d.content))).flatten)[
        (((groups.map (fun g => g.map (fun d => d.content))).map
          (fun l => l.length)).take j).sum + k]? = some s :=
    ⟨_, List.getElem?_eq_getElem hslen⟩
  have hcountslen : j < ((groups.map (fun g => g.map (fun d => d.content))).map
      (fun l => l.length)).length := by
    rw [List.length_map, List.length_map]
    exact hjlen
  have hgc : (groupByCounts
      (groups.map (fun g => g.map (fun d => d.content))).flatten
      ((groups.map (fun g => g.map (fun d => d.content))).map
        (fun l => l.length)))[j]? =
      some (((groups.map
        (fun g => g.map (fun d => d.content))).flatten.drop
          ((((groups.map (fun g => g.map (fun d => d.content))).map
            (fun l => l.length)).take j).sum)).take gdocs.length) := by
    rw [getElem?_eq_some_getD _ _ []
        (by rw [groupByCounts_length]; exact hcountslen),
      groupByCounts_getD _ _ _ hcountslen, hcjD]
  have hgs : (groupByCounts
      (engine (groups.map (fun g => g.map (fun d => d.content))).flatten)
      ((groups.map (fun g => g.map (fun d => d.content))).map
        (fun l => l.length)))[j]? =
      some (((engine (groups.map
        (fun g => g.map (fun d => d.content))).flatten).drop
          ((((groups.map (fun g => g.map (fun d => d.content))).map
            (fun l => l.length)).take j).sum)).take gdocs.length) := by
    rw [getElem?_eq_some_getD _ _ []
        (by rw [groupByCounts_length]; exact hcountslen),
      groupByCounts_getD _ _ _ hcountslen, hcjD]
  have hgc_k : (((groups.map
      (fun g => g.map (fun d => d.content))).flatten.drop
        ((((groups.map (fun g => g.map (fun d => d.content))).map
          (fun l => l.length)).take j).sum)).take gdocs.length)[k]? =
      some d0.content := by
    rw [List.getElem?_take, if_pos hklen, List.getElem?_drop]
    exact hflat
  have hgs_k : (((engine (groups.map
      (fun g => g.map (fun d => d.content))).flatten).drop
        ((((groups.map (fun g => g.map (fun d => d.content))).map
          (fun l => l.length)).take j).sum)).take gdocs.length)[k]? =
      some s := by
    rw [List.getElem?_take, if_pos hklen, List.getElem?_drop]
    exact hs
  unfold predict_batch
  rw [if_neg (not_lt.mpr hMin), if_neg (by simp [hNeN])]
  refine ⟨_, rfl, ?_⟩
  dsimp only
  simp only [buildSpans, Bool.false_eq_true, if_false, Option.getD]
  refine ⟨((((engine (groups.map
      (fun g => g.map (fun d => d.content))).flatten).drop
        ((((groups.map (fun g => g.map (fun d => d.content))).map
          (fun l => l.length)).take j).sum)).take gdocs.length).zip
      (((groups.map
        (fun g => g.map (fun d => d.content))).flatten.drop
          ((((groups.map (fun g => g.map (fun d => d.content))).map
            (fun l => l.length)).take j).sum)).take gdocs.length)).map
      (fun q => Document.mk q.1 [("context", q.2)]), ?_, s, ?_⟩
  · rw [List.getElem?_map, getElem?_zip_bind, hgs, hgc]
    rfl
  · rw [List.getElem?_map, getElem?_zip_bind, hgs_k, hgc_k]
    rfl

theorem dictGet_singleton (k v : String) : dictGet [(k, v)] k = some v := by
  unfold dictGet
  rw [@List.find?_cons_of_pos _ (fun p => p.1 == k) (k, v) [] (by simp)]
  rfl

/-! ## Concrete fixtures for witnesses and counterexamples -/

/-- A concrete configuration: `max_length = 200`, `min_length = 5`,
separator `" "`, per-document default mode, `model_max_length = 512`. -/
def cfg0 : Config := ⟨200, 5, " ", false, 512⟩

/-- A concrete tokenizer collaborator: every span counts 3 tokens. -/
def tok0 : String → Nat := fun _ => 3

/-- A concrete inference engine collaborator: one summary "S" per span. -/
def eng0 : List String → List String := fun l => l.map (fun _ => "S")

theorem eng0_len : ∀ l : List String, (eng0 l).length = l.length := fun l =>
  List.length_map l _

/-- A concrete document with one metadata field besides the content. -/
def docA : Document := ⟨"body", [("author", "x")]⟩

/-- A second concrete document with empty metadata. -/
def docB : Document := ⟨"b2", []⟩

/-! ## Claims -/

/-- C1: For every valid input to predict_batch, the sum of the recorded
per-group span counts (`number_of_docs`) equals the length of the
flattened span list (`contexts`) submitted to the inference engine, which
equals the number of summaries returned by the engine and regrouped. -/
theorem predict_batch_span_count_invariant (cfg : Config) (gss : Bool)
    (input : BatchInput) (engine : List String → List String)
    (hEng : ∀ l, (engine l).length = l.length) :
    (buildSpans cfg gss input).2.sum = (buildSpans cfg gss input).1.length ∧
    (engine (buildSpans cfg gss input).1).length =
      (buildSpans cfg gss input).1.length ∧
    ((groupByCounts (engine (buildSpans cfg gss input).1)
        (buildSpans cfg gss input).2).map List.length).sum =
      (buildSpans cfg gss input).1.length := by
  have hsum : (buildSpans cfg gss input).2.sum =
      (buildSpans cfg gss input).1.length := by
    cases input with
    | flat docs =>
        cases gss <;> simp [buildSpans, sum_map_one, sum_map_one_comp]
    | nested groups =>
        cases gss <;>
          simp [buildSpans, sum_map_one, sum_map_one_comp, List.length_flatten]
  have hle : (buildSpans cfg gss input).2.sum ≤
      (engine (buildSpans cfg gss input).1).length := by
    rw [hEng]
    exact le_of_eq hsum
  refine ⟨hsum, hEng _, ?_⟩
  rw [groupByCounts_map_length _ _ hle, hsum]

theorem predict_batch_span_count_invariant_witness :
    (∀ l : List String, (eng0 l).length = l.length) ∧
    ((buildSpans cfg0 true (BatchInput.nested [[docA], [docB]])).2.sum =
      (buildSpans cfg0 true (BatchInput.nested [[docA], [docB]])).1.length ∧
    (eng0 (buildSpans cfg0 true (BatchInput.nested [[docA], [docB]])).1).length =
      (buildSpans cfg0 true (BatchInput.nested [[docA], [docB]])).1.length ∧
    ((groupByCounts
        (eng0 (buildSpans cfg0 true (BatchInput.nested [[docA], [docB]])).1)
        (buildSpans cfg0 true (BatchInput.nested [[docA], [docB]])).2).map
          List.length).sum =
      (buildSpans cfg0 true (BatchInput.nested [[docA], [docB]])).1.length) :=
  ⟨eng0_len,
    predict_batch_span_count_invariant cfg0 true
      (BatchInput.nested [[docA], [docB]]) eng0 eng0_len⟩

/-- C2: Regrouping splits the flat list into per-group sublists by
cumulative boundaries: group `i` is the slice starting at
`offset_i = sum(counts[0..i))` of length `counts[i]`, and element `k` of
group `i` is the flat element at index `offset_i + k`. -/
theorem groupByCounts_slice_correspondence (xs : List String)
    (counts : List Nat) (i k : Nat) (hi : i < counts.length)
    (hk : k < counts.getD i 0) :
    (groupByCounts xs counts).getD i [] =
      (xs.drop ((counts.take i).sum)).take (counts.getD i 0) ∧
    ((groupByCounts xs counts).getD i [])[k]? =
      xs[(counts.take i).sum + k]? := by
  refine ⟨groupByCounts_getD counts xs i hi, ?_⟩
  rw [groupByCounts_getD counts xs i hi, List.getElem?_take, if_pos hk,
      List.getElem?_drop]

theorem groupByCounts_slice_correspondence_witness :
    (1 < ([2, 1] : List Nat).length ∧ 0 < ([2, 1] : List Nat).getD 1 0) ∧
    ((groupByCounts ["a", "b", "c"] [2, 1]).getD 1 [] =
      ((["a", "b", "c"]).drop ((([2, 1] : List Nat).take 1).sum)).take
        (([2, 1] : List Nat).getD 1 0) ∧
    ((groupByCounts ["a", "b", "c"] [2, 1]).getD 1 [])[0]? =
      (["a", "b", "c"])[(([2, 1] : List Nat).take 1).sum + 0]?) :=
  ⟨⟨by decide, by decide⟩,
    groupByCounts_slice_correspondence ["a", "b", "c"] [2, 1] 1 0
      (by decide) (by decide)⟩

/-- C3: For every non-empty flat list of Documents, predict returns a
result list whose length equals the number of input documents in
per-document mode and 1 in merged mode. -/
theorem predict_result_length (cfg : Config) (printLog : List String)
    (tokenize : String → Nat) (engine : List String → List String)
    (documents : List Document) (g : Option Bool)
    (hEng : ∀ l, (engine l).length = l.length)
    (hMin : cfg.min_length ≤ cfg.max_length) (hNe : documents ≠ []) :
    ∃ r, predict cfg printLog tokenize engine documents g = Except.ok r ∧
      r.1.length =
        if g.getD cfg.generate_single_summary then 1
        else documents.length := by
  unfold predict
  rw [if_neg (not_lt.mpr hMin),
      if_neg (by simpa [List.length_eq_zero] using hNe)]
  refine ⟨_, rfl, ?_⟩
  cases hg : g.getD cfg.generate_single_summary with
  | true => simp [hg, predictSpans, hEng]
  | false => simp [hg, predictSpans, hEng]

theorem predict_result_length_witness :
    ((∀ l : List String, (eng0 l).length = l.length) ∧
      cfg0.min_length ≤ cfg0.max_length ∧ [docA, docB] ≠ []) ∧
    (∃ r, predict cfg0 [] tok0 eng0 [docA, docB] (some false) =
        Except.ok r ∧
      r.1.length =
        if (some false).getD cfg0.generate_single_summary then 1
        else [docA, docB].length) :=
  ⟨⟨eng0_len, by decide, by decide⟩,
    predict_result_length cfg0 [] tok0 eng0 [docA, docB] (some false)
      eng0_len (by decide) (by decide)⟩

/-- C4: In merged mode each group contributes exactly one span, the
separator-join of its documents' contents in input order; the single
result Document's `context` metadata equals that joined string.  (The
concrete "A. B. C. D. E. F." instance is checked in the witness.) -/
theorem predict_merged_single_join (cfg : Config) (printLog : List String)
    (tokenize : String → Nat) (engine : List String → List String)
    (documents : List Document)
    (hEng : ∀ l, (engine l).length = l.length)
    (hMin : cfg.min_length ≤ cfg.max_length) (hNe : documents ≠ []) :
    predictSpans cfg true documents =
      [String.intercalate cfg.separator_for_single_summary
        (documents.map (fun d => d.content))] ∧
    ∃ r, predict cfg printLog tokenize engine documents (some true) =
        Except.ok r ∧
      r.1.length = 1 ∧
      ∀ d ∈ r.1, dictGet d.meta "context" =
        some (String.intercalate cfg.separator_for_single_summary
          (documents.map (fun d => d.content))) := by
  refine ⟨rfl, ?_⟩
  unfold predict
  rw [if_neg (not_lt.mpr hMin),
      if_neg (by simpa [List.length_eq_zero] using hNe)]
  refine ⟨_, rfl, ?_, ?_⟩
  · simp [predictSpans, hEng]
  · intro d hd
    simp only [Option.getD, if_pos rfl] at hd
    obtain ⟨p, hp, rfl⟩ := List.mem_map.mp hd
    have h1 := (List.of_mem_zip hp).1
    simp only [predictSpans, if_true, List.mem_singleton] at h1
    show dictGet [("context", p.1)] "context" = _
    rw [h1]
    exact dictGet_singleton _ _

theorem predict_merged_single_join_witness :
    ((∀ l : List String, (eng0 l).length = l.length) ∧
      cfg0.min_length ≤ cfg0.max_length ∧
      ([⟨"A. B. C.", []⟩, ⟨"D. E. F.", []⟩] : List Document) ≠ []) ∧
    String.intercalate cfg0.separator_for_single_summary
      (([⟨"A. B. C.", []⟩, ⟨"D. E. F.", []⟩] : List Document).map
        (fun d => d.content)) = "A. B. C. D. E. F." ∧
    (predictSpans cfg0 true [⟨"A. B. C.", []⟩, ⟨"D. E. F.", []⟩] =
      [String.intercalate cfg0.separator_for_single_summary
        (([⟨"A. B. C.", []⟩, ⟨"D. E. F.", []⟩] : List Document).map
          (fun d => d.content))] ∧
    ∃ r, predict cfg0 [] tok0 eng0 [⟨"A. B. C.", []⟩, ⟨"D. E. F.", []⟩]
        (some true) = Except.ok r ∧
      r.1.length = 1 ∧
      ∀ d ∈ r.1, dictGet d.meta "context" =
        some (String.intercalate cfg0.separator_for_single_summary
          (([⟨"A. B. C.", []⟩, ⟨"D. E. F.", []⟩] : List Document).map
            (fun d => d.content)))) :=
  ⟨⟨eng0_len, by decide, by decide⟩, by decide,
    predict_merged_single_join cfg0 [] tok0 eng0
      [⟨"A. B. C.", []⟩, ⟨"D. E. F.", []⟩] eng0_len (by decide) (by decide)⟩

/-- C5 counterexample: in per-document mode, `predict_batch` builds result
metadata containing only the `context` field — the originating document's
`author` field is dropped, so the result metadata does not equal the
originating metadata updated with `context`. -/
theorem predict_batch_meta_counterexample :
    predict_batch cfg0 tok0 eng0 (BatchInput.flat [docA]) (some false) =
      Except.ok ([Sum.inl (Document.mk "S" [("context", "body")])], []) ∧
    dictGet [("context", "body")] "author" = none ∧
    dictGet docA.meta "author" = some "x" ∧
    [("context", "body")] ≠ dictSet docA.meta "context" docA.content := by
  refine ⟨rfl, rfl, rfl, by decide⟩

/-- C5 amended: in per-document mode, each `predict` result's metadata is
the originating document's metadata updated with `context` = that
document's content (other fields carried forward, `context` overwritten);
`predict_batch` results — for flat and for nested inputs alike — instead
carry metadata consisting solely of the `context` field set to the
originating span text. -/
theorem perdoc_metadata_amended (cfg : Config) (printLog : List String)
    (tokenize : String → Nat) (engine : List String → List String)
    (documents : List Document) (i : Nat) (d0 : Document)
    (groups : List (List Document)) (j k2 : Nat) (gdocs : List Document)
    (d1 : Document) (hEng : ∀ l, (engine l).length = l.length)
    (hMin : cfg.min_length ≤ cfg.max_length)
    (hi : documents[i]? = some d0) (hgj : groups[j]? = some gdocs)
    (hgk : gdocs[k2]? = some d1) :
    (∃ r, predict cfg printLog tokenize engine documents (some false) =
        Except.ok r ∧
      ∃ s, r.1[i]? =
          some (Document.mk s (dictSet d0.meta "context" d0.content)) ∧
        dictGet (dictSet d0.meta "context" d0.content) "context" =
          some d0.content ∧
        ∀ k, k ≠ "context" →
          dictGet (dictSet d0.meta "context" d0.content) k =
            dictGet d0.meta k) ∧
    (∃ rb, predict_batch cfg tokenize engine (BatchInput.flat documents)
        (some false) = Except.ok rb ∧
      ∃ s2, rb.1[i]? =
        some (Sum.inl (Document.mk s2 [("context", d0.content)]))) ∧
    (∃ rbn, predict_batch cfg tokenize engine (BatchInput.nested groups)
        (some false) = Except.ok rbn ∧
      ∃ l, rbn.1[j]? = some (Sum.inr l) ∧
        ∃ s3, l[k2]? = some (Document.mk s3 [("context", d1.content)])) := by
  have hlen : i < documents.length := (List.getElem?_eq_some.mp hi).1
  have hNe : documents ≠ [] := by
    intro hcon
    rw [hcon] at hlen
    simp at hlen
  have hctx : (documents.map (fun d => d.content))[i]? = some d0.content := by
    rw [List.getElem?_map, hi]
    rfl
  have hslen : i < (engine (documents.map (fun d => d.content))).length := by
    rw [hEng, List.length_map]
    exact hlen
  obtain ⟨s, hs⟩ : ∃ s,
      (engine (documents.map (fun d => d.content)))[i]? = some s :=
    ⟨_, List.getElem?_eq_getElem hslen⟩
  refine ⟨?_, ?_,
    predict_batch_nested_perdoc_elem cfg tokenize engine groups j k2 gdocs
      d1 hEng hMin hgj hgk⟩
  · unfold predict
    rw [if_neg (not_lt.mpr hMin),
        if_neg (by simpa [List.length_eq_zero] using hNe)]
    refine ⟨_, rfl, s, ?_, dictGet_dictSet_self _ _ _,
      fun k hk => dictGet_dictSet_ne _ _ _ _ hk⟩
    simp only [Option.getD, Bool.false_eq_true, if_false, predictSpans,
      List.getElem?_map, getElem?_zip_bind, hctx, hs, hi]
    rfl
  · rw [predict_batch_flat_perdoc_eq cfg tokenize engine documents hEng hMin hNe]
    refine ⟨_, rfl, s, ?_⟩
    simp only [List.getElem?_map, getElem?_zip_bind, hctx, hs]
    rfl

theorem perdoc_metadata_amended_witness :
    ((∀ l : List String, (eng0 l).length = l.length) ∧
      cfg0.min_length ≤ cfg0.max_length ∧
      ([docA, docB] : List Document)[1]? = some docB ∧
      ([[docA], [docB]] : List (List Document))[1]? = some [docB] ∧
      ([docB] : List Document)[0]? = some docB) ∧
    ((∃ r, predict cfg0 [] tok0 eng0 [docA, docB] (some false) =
        Except.ok r ∧
      ∃ s, r.1[1]? =
          some (Document.mk s (dictSet docB.meta "context" docB.content)) ∧
        dictGet (dictSet docB.meta "context" docB.content) "context" =
          some docB.content ∧
        ∀ k, k ≠ "context" →
          dictGet (dictSet docB.meta "context" docB.content) k =
            dictGet docB.meta k) ∧
    (∃ rb, predict_batch cfg0 tok0 eng0 (BatchInput.flat [docA, docB])
        (some false) = Except.ok rb ∧
      ∃ s2, rb.1[1]? =
        some (Sum.inl (Document.mk s2 [("context", docB.content)]))) ∧
    (∃ rbn, predict_batch cfg0 tok0 eng0
        (BatchInput.nested [[docA], [docB]]) (some false) = Except.ok rbn ∧
      ∃ l, rbn.1[1]? = some (Sum.inr l) ∧
        ∃ s3, l[0]? = some (Document.mk s3 [("context", docB.content)]))) :=
  ⟨⟨eng0_len, by decide, by decide, by decide, by decide⟩,
    perdoc_metadata_amended cfg0 [] tok0 eng0 [docA, docB] 1 docB
      [[docA], [docB]] 1 0 [docB] docB eng0_len (by decide) (by decide)
      (by decide) (by decide)⟩

/-- Closed form of `predict_batch` on a nested input in merged mode: one
`Sum.inr` one-element group per input group, pairing the i-th summary
with the i-th joined span as `context`. -/
theorem predict_batch_nested_merged_eq (cfg : Config) (tokenize : String → Nat)
    (engine : List String → List String) (groups : List (List Document))
    (hEng : ∀ l, (engine l).length = l.length)
    (hMin : cfg.min_length ≤ cfg.max_length)
    (hNe : isEmptyInput (BatchInput.nested groups) = false) :
    predict_batch cfg tokenize engine (BatchInput.nested groups) (some true) =
      Except.ok
        (((engine ((groups.map (fun g => g.map (fun d => d.content))).map
              (String.intercalate cfg.separator_for_single_summary))).zip
            ((groups.map (fun g => g.map (fun d => d.content))).map
              (String.intercalate cfg.separator_for_single_summary))).map
            (fun p => Sum.inr [Document.mk p.1 [("context", p.2)]]),
         batchAdvisory cfg.model_max_length
           (((groups.map (fun g => g.map (fun d => d.content))).map
              (String.intercalate cfg.separator_for_single_summary)).map
             tokenize)) := by
  unfold predict_batch
  rw [if_neg (not_lt.mpr hMin), if_neg (by simp [hNe])]
  simp only [Option.getD, buildSpans, eq_self_iff_true, if_true,
    Bool.false_eq_true, if_false]
  rw [regroup_ones_inr _ _ (hEng _)]

/-- C6 amended: a flat input to predict_batch yields a flat list of
result Documents (every entry `Sum.inl`); a multi-group input yields
exactly one entry per group in both modes, each entry a list — in merged
mode a one-element list of result Documents (not a bare Document), in
per-document mode a list of result Documents. -/
theorem batch_output_shape_amended (cfg : Config) (tokenize : String → Nat)
    (engine : List String → List String) (g : Option Bool)
    (docs : List Document) (groups : List (List Document))
    (hEng : ∀ l, (engine l).length = l.length)
    (hMin : cfg.min_length ≤ cfg.max_length) (hNeF : docs ≠ [])
    (hNeN : isEmptyInput (BatchInput.nested groups) = false) :
    (∃ rb, predict_batch cfg tokenize engine (BatchInput.flat docs) g =
        Except.ok rb ∧ ∀ e ∈ rb.1, ∃ d, e = Sum.inl d) ∧
    (∃ rb, predict_batch cfg tokenize engine (BatchInput.nested groups)
        (some true) = Except.ok rb ∧
      rb.1.length = groups.length ∧ ∀ e ∈ rb.1, ∃ d, e = Sum.inr [d]) ∧
    (∃ rb, predict_batch cfg tokenize engine (BatchInput.nested groups) g =
        Except.ok rb ∧
      rb.1.length = groups.length ∧ ∀ e ∈ rb.1, ∃ l, e = Sum.inr l) := by
  refine ⟨?_, ?_, ?_⟩
  · unfold predict_batch
    rw [if_neg (not_lt.mpr hMin),
        if_neg (by simp [isEmptyInput, List.isEmpty_iff, hNeF])]
    refine ⟨_, rfl, ?_⟩
    intro e he
    dsimp only at he
    obtain ⟨p, _, rfl⟩ := List.mem_map.mp he
    exact ⟨_, rfl⟩
  · rw [predict_batch_nested_merged_eq cfg tokenize engine groups hEng hMin hNeN]
    refine ⟨_, rfl, ?_, ?_⟩
    · simp [List.length_zip, hEng]
    · intro e he
      obtain ⟨p, _, rfl⟩ := List.mem_map.mp he
      exact ⟨_, rfl⟩
  · unfold predict_batch
    rw [if_neg (not_lt.mpr hMin), if_neg (by simp [hNeN])]
    refine ⟨_, rfl, ?_, ?_⟩
    · dsimp only
      rw [List.length_map, List.length_zip, groupByCounts_length,
          groupByCounts_length, Nat.min_self, buildSpans_counts_length_nested]
    · intro e he
      dsimp only at he
      obtain ⟨p, _, rfl⟩ := List.mem_map.mp he
      exact ⟨_, rfl⟩

theorem batch_output_shape_amended_witness :
    ((∀ l : List String, (eng0 l).length = l.length) ∧
      cfg0.min_length ≤ cfg0.max_length ∧ ([docA] : List Document) ≠ [] ∧
      isEmptyInput (BatchInput.nested [[docA], [docB]]) = false) ∧
    ((∃ rb, predict_batch cfg0 tok0 eng0 (BatchInput.flat [docA])
        (some false) = Except.ok rb ∧ ∀ e ∈ rb.1, ∃ d, e = Sum.inl d) ∧
    (∃ rb, predict_batch cfg0 tok0 eng0 (BatchInput.nested [[docA], [docB]])
        (some true) = Except.ok rb ∧
      rb.1.length = ([[docA], [docB]] : List (List Document)).length ∧
      ∀ e ∈ rb.1, ∃ d, e = Sum.inr [d]) ∧
    (∃ rb, predict_batch cfg0 tok0 eng0 (BatchInput.nested [[docA], [docB]])
        (some false) = Except.ok rb ∧
      rb.1.length = ([[docA], [docB]] : List (List Document)).length ∧
      ∀ e ∈ rb.1, ∃ l, e = Sum.inr l)) :=
  ⟨⟨eng0_len, by decide, by decide, by decide⟩,
    batch_output_shape_amended cfg0 tok0 eng0 (some false) [docA]
      [[docA], [docB]] eng0_len (by decide) (by decide) (by decide)⟩

/-- C6 counterexample: for a two-group nested input in merged mode, the
entries of the predict_batch result are `Sum.inr` one-element lists, not
bare `Sum.inl` Documents as the claim states. -/
theorem nested_merged_entry_counterexample :
    predict_batch cfg0 tok0 eng0 (BatchInput.nested [[docA], [docB]])
        (some true) =
      Except.ok ([Sum.inr [Document.mk "S" [("context", "body")]],
        Sum.inr [Document.mk "S" [("context", "b2")]]], []) ∧
    (Sum.inr [Document.mk "S" [("context", "body")]] :
        Document ⊕ List Document) ≠
      Sum.inl (Document.mk "S" [("context", "body")]) := by
  refine ⟨rfl, by decide⟩

/-- A configuration with `min_length > max_length`, used to exercise the
`InvalidConfiguration` path. -/
def cfgBad : Config := ⟨3, 10, " ", false, 512⟩

/-- C7: when `min_length > max_length`, both predict and predict_batch
fail with the configuration error, and the outcome is the same for every
tokenizer and inference engine — no collaborator is consulted. -/
theorem invalid_configuration_short_circuit (cfg : Config)
    (printLog : List String) (tok1 tok2 : String → Nat)
    (eng1 eng2 : List String → List String) (documents : List Document)
    (input : BatchInput) (g : Option Bool)
    (h : cfg.max_length < cfg.min_length) :
    predict cfg printLog tok1 eng1 documents g =
      Except.error SummarizerError.invalidConfiguration ∧
    predict_batch cfg tok1 eng1 input g =
      Except.error SummarizerError.invalidConfiguration ∧
    predict cfg printLog tok1 eng1 documents g =
      predict cfg printLog tok2 eng2 documents g ∧
    predict_batch cfg tok1 eng1 input g =
      predict_batch cfg tok2 eng2 input g := by
  have hp : ∀ (tk : String → Nat) (en : List String → List String),
      predict cfg printLog tk en documents g =
        Except.error SummarizerError.invalidConfiguration := by
    intro tk en
    unfold predict
    rw [if_pos h]
  have hb : ∀ (tk : String → Nat) (en : List String → List String),
      predict_batch cfg tk en input g =
        Except.error SummarizerError.invalidConfiguration := by
    intro tk en
    unfold predict_batch
    rw [if_pos h]
  exact ⟨hp tok1 eng1, hb tok1 eng1,
    (hp tok1 eng1).trans (hp tok2 eng2).symm,
    (hb tok1 eng1).trans (hb tok2 eng2).symm⟩

theorem invalid_configuration_short_circuit_witness :
    cfgBad.max_length < cfgBad.min_length ∧
    (predict cfgBad [] tok0 eng0 [docA] none =
      Except.error SummarizerError.invalidConfiguration ∧
    predict_batch cfgBad tok0 eng0 (BatchInput.flat [docA]) none =
      Except.error SummarizerError.invalidConfiguration ∧
    predict cfgBad [] tok0 eng0 [docA] none =
      predict cfgBad [] (fun _ => 0) (fun l => l) [docA] none ∧
    predict_batch cfgBad tok0 eng0 (BatchInput.flat [docA]) none =
      predict_batch cfgBad (fun _ => 0) (fun l => l)
        (BatchInput.flat [docA]) none) :=
  ⟨by decide,
    invalid_configuration_short_circuit cfgBad [] tok0 (fun _ => 0) eng0
      (fun l => l) [docA] (BatchInput.flat [docA]) none (by decide)⟩

/-- C8: an empty input list raises the invalid-input error in both
predict and predict_batch, as does a multi-group input whose groups are
all empty; the outcome does not depend on the collaborators, so no
inference occurs. -/
theorem empty_input_invalid (cfg : Config) (printLog : List String)
    (tok1 tok2 : String → Nat) (eng1 eng2 : List String → List String)
    (g : Option Bool) (hMin : cfg.min_length ≤ cfg.max_length) :
    predict cfg printLog tok1 eng1 [] g =
      Except.error SummarizerError.invalidInput ∧
    predict_batch cfg tok1 eng1 (BatchInput.flat []) g =
      Except.error SummarizerError.invalidInput ∧
    predict_batch cfg tok1 eng1 (BatchInput.nested [[], []]) g =
      Except.error SummarizerError.invalidInput ∧
    (∀ groups : List (List Document), (∀ gr ∈ groups, gr = []) →
      predict_batch cfg tok1 eng1 (BatchInput.nested groups) g =
        Except.error SummarizerError.invalidInput) ∧
    predict cfg printLog tok1 eng1 [] g =
      predict cfg printLog tok2 eng2 [] g ∧
    predict_batch cfg tok1 eng1 (BatchInput.flat []) g =
      predict_batch cfg tok2 eng2 (BatchInput.flat []) g := by
  have hgen : ∀ (tk : String → Nat) (en : List String → List String)
      (input : BatchInput), isEmptyInput input = true →
      predict_batch cfg tk en input g =
        Except.error SummarizerError.invalidInput := by
    intro tk en input hinput
    unfold predict_batch
    rw [if_neg (not_lt.mpr hMin), if_pos hinput]
  have hpred : ∀ (tk : String → Nat) (en : List String → List String),
      predict cfg printLog tk en [] g =
        Except.error SummarizerError.invalidInput := by
    intro tk en
    unfold predict
    rw [if_neg (not_lt.mpr hMin),
        if_pos (show ([] : List Document).length = 0 from rfl)]
  refine ⟨hpred tok1 eng1, hgen tok1 eng1 (BatchInput.flat []) (by rfl),
    hgen tok1 eng1 (BatchInput.nested [[], []]) (by rfl), ?_,
    (hpred tok1 eng1).trans (hpred tok2 eng2).symm,
    (hgen tok1 eng1 (BatchInput.flat []) (by rfl)).trans
      (hgen tok2 eng2 (BatchInput.flat []) (by rfl)).symm⟩
  intro groups hall
  apply hgen tok1 eng1
  have hall2 : groups.all (fun gr => gr.isEmpty) = true := by
    rw [List.all_eq_true]
    intro gr hgr
    rw [hall gr hgr]
    rfl
  simp [isEmptyInput, hall2]

theorem empty_input_invalid_witness :
    cfg0.min_length ≤ cfg0.max_length ∧
    (predict cfg0 [] tok0 eng0 [] none =
      Except.error SummarizerError.invalidInput ∧
    predict_batch cfg0 tok0 eng0 (BatchInput.flat []) none =
      Except.error SummarizerError.invalidInput ∧
    predict_batch cfg0 tok0 eng0 (BatchInput.nested [[], []]) none =
      Except.error SummarizerError.invalidInput ∧
    (∀ groups : List (List Document), (∀ gr ∈ groups, gr = []) →
      predict_batch cfg0 tok0 eng0 (BatchInput.nested groups) none =
        Except.error SummarizerError.invalidInput) ∧
    predict cfg0 [] tok0 eng0 [] none =
      predict cfg0 [] (fun _ => 0) (fun l => l) [] none ∧
    predict_batch cfg0 tok0 eng0 (BatchInput.flat []) none =
      predict_batch cfg0 (fun _ => 0) (fun l => l)
        (BatchInput.flat []) none) :=
  ⟨by decide,
    empty_input_invalid cfg0 [] tok0 (fun _ => 0) eng0 (fun l => l) none
      (by decide)⟩

/-- C9: the truncation advisory policy.  In `predict`, the advisory loop
emits the warning exactly once per distinct message over the instance's
lifetime: nothing if the message is already in `print_log`, exactly one
entry (also recorded in `print_log`) the first time a span exceeds the
limit, nothing when no span exceeds it.  In `predict_batch`, at most one
advisory is emitted per call, exactly one when any span exceeds the
limit.  The advisory never blocks inference: both calls still succeed. -/
theorem truncation_advisory_policy (cfg : Config) (printLog : List String)
    (tcs : List Nat) (tokenize : String → Nat)
    (engine : List String → List String) (documents : List Document)
    (input : BatchInput) (g : Option Bool)
    (hMin : cfg.min_length ≤ cfg.max_length) (hNe : documents ≠ [])
    (hNeB : isEmptyInput input = false) :
    (truncationWarning cfg.model_max_length ∈ printLog →
      (predictAdvisory cfg.model_max_length printLog tcs).2 = []) ∧
    (truncationWarning cfg.model_max_length ∉ printLog →
      (∃ tc ∈ tcs, cfg.model_max_length < tc) →
      (predictAdvisory cfg.model_max_length printLog tcs).2 =
          [truncationWarning cfg.model_max_length] ∧
        truncationWarning cfg.model_max_length ∈
          (predictAdvisory cfg.model_max_length printLog tcs).1) ∧
    ((∀ tc ∈ tcs, tc ≤ cfg.model_max_length) →
      (predictAdvisory cfg.model_max_length printLog tcs).2 = []) ∧
    (batchAdvisory cfg.model_max_length tcs).length ≤ 1 ∧
    ((tcs.any fun tc => cfg.model_max_length < tc) = true →
      batchAdvisory cfg.model_max_length tcs =
        [truncationWarning cfg.model_max_length]) ∧
    (∃ r, predict cfg printLog tokenize engine documents g = Except.ok r) ∧
    (∃ rb, predict_batch cfg tokenize engine input g = Except.ok rb) := by
  refine ⟨?_, ?_, ?_, ?_, ?_, ?_, ?_⟩
  · intro h
    rw [predictAdvisory_of_mem _ _ _ h]
  · intro hnot hex
    rw [predictAdvisory_emit _ _ hnot tcs hex]
    exact ⟨rfl, by simp⟩
  · intro h
    rw [predictAdvisory_of_no_overflow _ _ tcs h]
  · unfold batchAdvisory
    by_cases h : (tcs.any fun tc => cfg.model_max_length < tc) = true
    · rw [if_pos h]
      simp
    · rw [if_neg h]
      simp
  · intro h
    unfold batchAdvisory
    rw [if_pos h]
  · unfold predict
    rw [if_neg (not_lt.mpr hMin),
        if_neg (by simpa [List.length_eq_zero] using hNe)]
    exact ⟨_, rfl⟩
  · unfold predict_batch
    rw [if_neg (not_lt.mpr hMin), if_neg (by simp [hNeB])]
    exact ⟨_, rfl⟩

theorem truncation_advisory_policy_witness :
    (cfg0.min_length ≤ cfg0.max_length ∧ ([docA] : List Document) ≠ [] ∧
      isEmptyInput (BatchInput.flat [docA]) = false) ∧
    ((truncationWarning cfg0.model_max_length ∈ ([] : List String) →
      (predictAdvisory cfg0.model_max_length [] [600]).2 = []) ∧
    (truncationWarning cfg0.model_max_length ∉ ([] : List String) →
      (∃ tc ∈ [600], cfg0.model_max_length < tc) →
      (predictAdvisory cfg0.model_max_length [] [600]).2 =
          [truncationWarning cfg0.model_max_length] ∧
        truncationWarning cfg0.model_max_length ∈
          (predictAdvisory cfg0.model_max_length [] [600]).1) ∧
    ((∀ tc ∈ [600], tc ≤ cfg0.model_max_length) →
      (predictAdvisory cfg0.model_max_length [] [600]).2 = []) ∧
    (batchAdvisory cfg0.model_max_length [600]).length ≤ 1 ∧
    (([600].any fun tc => cfg0.model_max_length < tc) = true →
      batchAdvisory cfg0.model_max_length [600] =
        [truncationWarning cfg0.model_max_length]) ∧
    (∃ r, predict cfg0 [] tok0 eng0 [docA] none = Except.ok r) ∧
    (∃ rb, predict_batch cfg0 tok0 eng0 (BatchInput.flat [docA]) none =
      Except.ok rb)) :=
  ⟨⟨by decide, by decide, by decide⟩,
    truncation_advisory_policy cfg0 [] [600] tok0 eng0 [docA]
      (BatchInput.flat [docA]) none (by decide) (by decide) (by decide)⟩

/-- C10: in predict_batch with a multi-group input in merged mode, an
empty group is not skipped: it contributes one span equal to the empty
string (the join of zero contents), receives its own summary, and its
output entry is a one-element group whose `context` metadata is "". -/
theorem empty_group_merged_empty_span (cfg : Config)
    (tokenize : String → Nat) (engine : List String → List String)
    (groups : List (List Document)) (i : Nat)
    (hEng : ∀ l, (engine l).length = l.length)
    (hMin : cfg.min_length ≤ cfg.max_length)
    (hNe : isEmptyInput (BatchInput.nested groups) = false)
    (hi : groups[i]? = some []) :
    (buildSpans cfg true (BatchInput.nested groups)).1[i]? = some "" ∧
    ∃ rb, predict_batch cfg tokenize engine (BatchInput.nested groups)
        (some true) = Except.ok rb ∧
      ∃ s, rb.1[i]? = some (Sum.inr [Document.mk s [("context", "")]]) := by
  have hspan : ((groups.map (fun g => g.map (fun d => d.content))).map
      (String.intercalate cfg.separator_for_single_summary))[i]? =
        some "" := by
    rw [List.getElem?_map, List.getElem?_map, hi]
    rfl
  constructor
  · exact hspan
  · rw [predict_batch_nested_merged_eq cfg tokenize engine groups hEng hMin
      hNe]
    refine ⟨_, rfl, ?_⟩
    have hlen : i < groups.length := (List.getElem?_eq_some.mp hi).1
    have hslen : i < (engine ((groups.map
        (fun g => g.map (fun d => d.content))).map
        (String.intercalate cfg.separator_for_single_summary))).length := by
      rw [hEng, List.length_map, List.length_map]
      exact hlen
    obtain ⟨s, hs⟩ : ∃ s, (engine ((groups.map
        (fun g => g.map (fun d => d.content))).map
        (String.intercalate cfg.separator_for_single_summary)))[i]? =
          some s := ⟨_, List.getElem?_eq_getElem hslen⟩
    refine ⟨s, ?_⟩
    simp only [List.getElem?_map, getElem?_zip_bind, hs, hspan]
    rfl

theorem empty_group_merged_empty_span_witness :
    ((∀ l : List String, (eng0 l).length = l.length) ∧
      cfg0.min_length ≤ cfg0.max_length ∧
      isEmptyInput (BatchInput.nested [[], [docA]]) = false ∧
      ([[], [docA]] : List (List Document))[0]? = some []) ∧
    ((buildSpans cfg0 true (BatchInput.nested [[], [docA]])).1[0]? =
      some "" ∧
    ∃ rb, predict_batch cfg0 tok0 eng0 (BatchInput.nested [[], [docA]])
        (some true) = Except.ok rb ∧
      ∃ s, rb.1[0]? = some (Sum.inr [Document.mk s [("context", "")]])) :=
  ⟨⟨eng0_len, by decide, by decide, by decide⟩,
    empty_group_merged_empty_span cfg0 tok0 eng0 [[], [docA]] 0 eng0_len
      (by decide) (by decide) (by decide)⟩

end Haystack
